import Mathlib

/-!
Verification model of `convert_sql.py`: a shallow embedding of the tokenizer,
header parser, context engine (`process_token`) and the structured-document
(JSON) emitter, together with theorems settling the specification claims.

Python strings are modelled as `String`/`List Char` (ASCII fragment: the
case-mapping and whitespace functions model Python behaviour on ASCII input,
which covers every construct of the source format). Python exceptions are
modelled by `Except PyErr`. `deepcopy` is the identity in this persistent
model: the source deep-copies its mutable dict exactly so that snapshots
behave like the immutable values used here (a `map` object survives
`deepcopy` with its consumption state, which is modelled by storing the
remaining elements of the iterator).
-/

namespace ConvertSql

/-- Python whitespace (`str.strip`, regex `\s`), ASCII part. -/
def isPyWs (c : Char) : Bool :=
  c == ' ' || c == '\t' || c == '\n' || c == '\r' || c == '\x0b' || c == '\x0c'

/-- `str.lstrip()` on a character list. -/
def lstripL (l : List Char) : List Char := l.dropWhile isPyWs

/-- `str.rstrip()` on a character list. -/
def rstripL (l : List Char) : List Char := (l.reverse.dropWhile isPyWs).reverse

/-- `str.strip()` on a character list. -/
def stripL (l : List Char) : List Char := rstripL (lstripL l)

/-- `str.strip()`. -/
def pyStrip (s : String) : String := (stripL s.toList).asString

/-- `str.rstrip()`. -/
def pyRstrip (s : String) : String := (rstripL s.toList).asString

/-- `str.upper()` on a character list (ASCII). -/
def upperL (l : List Char) : List Char := l.map Char.toUpper

/-- `str.lower()` on a character list (ASCII). -/
def lowerL (l : List Char) : List Char := l.map Char.toLower

/-- `str.lower()`. -/
def pyLower (s : String) : String := (lowerL s.toList).asString

/-- `str.startswith` on character lists, defined structurally. -/
def startsWithL : List Char → List Char → Bool
  | _, [] => true
  | [], _ :: _ => false
  | c :: t, d :: s => c == d && startsWithL t s

/-- `str.endswith` on character lists. -/
def endsWithL (l suf : List Char) : Bool := startsWithL l.reverse suf.reverse

/-- Python substring test `sub in s` on character lists. -/
def containsSubL (sub : List Char) : List Char → Bool
  | [] => sub.isEmpty
  | c :: t => startsWithL (c :: t) sub || containsSubL sub t

/-- Char.toLower after Char.toUpper agrees with Char.toLower (ASCII case mapping). -/
theorem toNat_ofNat_valid {n : Nat} (h : n.isValidChar) : (Char.ofNat n).toNat = n := by
  simp [Char.ofNat, dif_pos h, Char.ofNatAux, Char.toNat, UInt32.toNat]

theorem toLower_toUpper (c : Char) : c.toUpper.toLower = c.toLower := by
  unfold Char.toUpper Char.toLower
  by_cases h : c.toNat ≥ 97 ∧ c.toNat ≤ 122
  · have hv : (c.toNat - 32).isValidChar := Or.inl (by omega)
    have h1 : (Char.ofNat (c.toNat - 32)).toNat = c.toNat - 32 := toNat_ofNat_valid hv
    rw [if_pos h, h1]
    have h2 : c.toNat - 32 ≥ 65 ∧ c.toNat - 32 ≤ 90 := by omega
    rw [if_pos h2]
    have h3 : ¬ (c.toNat ≥ 65 ∧ c.toNat ≤ 90) := by omega
    rw [if_neg h3]
    have h4 : c.toNat - 32 + 32 = c.toNat := by omega
    rw [h4, Char.ofNat_toNat]
  · rw [if_neg h]

theorem lowerL_upperL (l : List Char) : lowerL (upperL l) = lowerL l := by
  simp only [lowerL, upperL, List.map_map]
  exact List.map_congr_left fun c _ => toLower_toUpper c

/-! ## posixpath (the source runs on POSIX: `os.path` = `posixpath`) -/

/-- `posixpath.normcase` is the identity. -/
def osp_normcase (s : String) : String := s

/-- `posixpath.join` for two components. -/
def osp_join (a b : String) : String :=
  if startsWithL b.toList ['/'] then b
  else if a == "" || endsWithL a.toList ['/'] then a ++ b
  else a ++ "/" ++ b

/-- last index of `c` in `l`, or `-1` (Python `str.rfind`). -/
def rfindIdx (c : Char) (l : List Char) : Int :=
  go l 0 (-1)
where
  go : List Char → Nat → Int → Int
    | [], _, best => best
    | d :: t, i, best => go t (i + 1) (if d == c then (i : Int) else best)

/-- `posixpath.dirname`. -/
def osp_dirname (p : String) : String :=
  let l := p.toList
  let i := rfindIdx '/' l + 1
  let head := l.take i.toNat
  if head ≠ [] ∧ ¬ head.all (fun c => c == '/') then
    ((head.reverse.dropWhile (fun c => c == '/')).reverse).asString
  else head.asString

/-- `posixpath.splitext`: the extension starts at the last dot of the basename,
unless the basename consists only of leading dots. -/
def osp_splitext (p : String) : String × String :=
  let l := p.toList
  let sepIndex := rfindIdx '/' l
  let dotIndex := rfindIdx '.' l
  if sepIndex < dotIndex then
    let filename := (l.take dotIndex.toNat).drop (sepIndex + 1).toNat
    if filename.any (fun c => c != '.') then
      ((l.take dotIndex.toNat).asString, (l.drop dotIndex.toNat).asString)
    else (p, "")
  else (p, "")

/-! ## Python dict (string keys and values, insertion order) -/

/-- dict lookup. -/
def dict_get (d : List (String × String)) (k : String) : Option String :=
  match d with
  | [] => none
  | (k2, v) :: t => if k2 == k then some v else dict_get t k

/-- dict membership `k in d`. -/
def dict_contains (d : List (String × String)) (k : String) : Bool :=
  (dict_get d k).isSome

/-- dict assignment `d[k] = v` (updates in place, else appends). -/
def dict_set (d : List (String × String)) (k v : String) : List (String × String) :=
  match d with
  | [] => [(k, v)]
  | (k2, v2) :: t => if k2 == k then (k2, v) :: t else (k2, v2) :: dict_set t k v

theorem dict_get_set_self (d : List (String × String)) (k v : String) :
    dict_get (dict_set d k v) k = some v := by
  induction d with
  | nil => simp [dict_set, dict_get]
  | cons h t ih =>
    obtain ⟨k2, v2⟩ := h
    by_cases hk : k2 = k
    · simp [dict_set, dict_get, hk]
    · simp [dict_set, dict_get, hk, ih]

theorem dict_get_set_other (d : List (String × String)) (k v k2 : String) (h : k ≠ k2) :
    dict_get (dict_set d k v) k2 = dict_get d k2 := by
  induction d with
  | nil => simp [dict_set, dict_get, h]
  | cons hd t ih =>
    obtain ⟨k3, v3⟩ := hd
    by_cases hk : k3 = k
    · subst hk
      simp [dict_set, dict_get, h]
    · simp [dict_set, dict_get, hk, ih]

theorem dict_contains_set (d : List (String × String)) (k v k2 : String) :
    dict_contains (dict_set d k v) k2 = (k == k2 || dict_contains d k2) := by
  by_cases h : k = k2
  · subst h
    simp [dict_contains, dict_get_set_self]
  · have := dict_get_set_other d k v k2 h
    simp [dict_contains, this, h]

/-! ## Tokens -/

/-- `TokenType` enum of the source. -/
inductive TokenType where
  | SQL
  | LINE_COMMENT
  | BLOCK_COMMENT
  | HEADER
  | GROUP_TAG
  | META_COMMENT
deriving DecidableEq, Repr

/-- `TokenType(...).name` as used in error messages. -/
def TokenType.name : TokenType → String
  | .SQL => "SQL"
  | .LINE_COMMENT => "LINE_COMMENT"
  | .BLOCK_COMMENT => "BLOCK_COMMENT"
  | .HEADER => "HEADER"
  | .GROUP_TAG => "GROUP_TAG"
  | .META_COMMENT => "META_COMMENT"

/-- the `groupdict()` of GROUP_REGEX carried by a GROUP_TAG token;
`output` is `None` when the optional OUTPUT clause is absent. -/
structure GroupDict where
  tag : String
  name : String
  output : Option String
deriving DecidableEq, Repr

/-- a `Token` namedtuple; the contents shape is determined by the kind,
exactly as produced by `tokenizer`. -/
inductive Token where
  | SQL (contents : String)
  | LINE_COMMENT (contents : String)
  | BLOCK_COMMENT (contents : String)
  | HEADER (tag value : String)
  | GROUP_TAG (g : GroupDict)
  | META_COMMENT (contents : String)
deriving DecidableEq, Repr

/-- `token.type`. -/
def Token.type : Token → TokenType
  | .SQL _ => .SQL
  | .LINE_COMMENT _ => .LINE_COMMENT
  | .BLOCK_COMMENT _ => .BLOCK_COMMENT
  | .HEADER _ _ => .HEADER
  | .GROUP_TAG _ => .GROUP_TAG
  | .META_COMMENT _ => .META_COMMENT

/-- `existing_params`: the mutable context dict threaded through `process_token`.
`meta` models the `map` object stored by the meta-comment branch (line 220):
`some cmds` is a live iterator whose remaining elements are `cmds`; `none`
means the key is absent (popped, or never set). -/
structure Params where
  output : String
  group : List String
  allow_comments : Bool
  meta : Option (List String) := none
deriving DecidableEq, Repr

/-- the contents slot of a processed-token dict. -/
inductive PTContents where
  | text (s : String)
  | groupKV (g : GroupDict)
deriving DecidableEq, Repr

/-- a non-empty `processed_token` dict. -/
structure ProcessedToken where
  contents : PTContents
  type : TokenType
  existing_params : Params
deriving DecidableEq, Repr

/-- uncaught Python exceptions of the pipeline. -/
inductive PyErr where
  | StopIteration
  | TypeError (msg : String)
  | ValueError (msg : String)
  | LookupError (msg : String)
  | IndexError (msg : String)
  | KeyError (key : String)
deriving DecidableEq, Repr

/-! ## Meta-comment directive parsing

`RAW_META_COMMENT_REGEX = r'.*?(EXCLUDE|MULTILINE)|(OUTPUT\s*:\s*(?:.*)).*'`
with `re.I|re.M|re.S`. `findall` repeatedly takes the leftmost match: the
first (lazy) alternative fires on the earliest case-insensitive occurrence of
a keyword anywhere at or after the scan position; only when no keyword occurs
at all in the remaining text does the second alternative fire, on the
earliest position matching `OUTPUT\s*:`, whose group then extends to the end
of the text (`(?:.*)` is greedy under DOTALL). -/

/-- earliest case-insensitive occurrence of EXCLUDE or MULTILINE; returns the
matched slice (original case) and the remaining text after it. -/
def findFirstKw : List Char → Option (List Char × List Char)
  | [] => none
  | c :: rest =>
    if upperL ((c :: rest).take 7) == "EXCLUDE".toList then
      some ((c :: rest).take 7, (c :: rest).drop 7)
    else if upperL ((c :: rest).take 9) == "MULTILINE".toList then
      some ((c :: rest).take 9, (c :: rest).drop 9)
    else findFirstKw rest

/-- does `OUTPUT\s*:` match here (case-insensitively)? -/
def outputColonAt (l : List Char) : Bool :=
  upperL (l.take 6) == "OUTPUT".toList &&
    ((l.drop 6).dropWhile isPyWs).head? == some ':'

/-- earliest position where `OUTPUT\s*:` matches; returns the suffix from it. -/
def findOutputColon : List Char → Option (List Char)
  | [] => none
  | c :: rest => if outputColonAt (c :: rest) then some (c :: rest) else findOutputColon rest

/-- `RAW_META_COMMENT_REGEX.findall`; the fuel (any value above the scan
length) only bounds the recursion. -/
def raw_meta_findall_aux : Nat → List Char → List (String × String)
  | 0, _ => []
  | fuel + 1, l =>
    match findFirstKw l with
    | some (cap, rest) => (cap.asString, "") :: raw_meta_findall_aux fuel rest
    | none =>
      match findOutputColon l with
      | some cap2 => [("", cap2.asString)]
      | none => []

def raw_meta_findall (s : String) : List (String × String) :=
  raw_meta_findall_aux (s.toList.length + 1) s.toList

/-- `flatten` applied to the list of 2-tuples returned by `findall`. -/
def flatten_pairs : List (String × String) → List String
  | [] => []
  | (a, b) :: t => a :: b :: flatten_pairs t

/-- `index_containing_substring(the_list, substring)`. -/
def index_containing_substring (the_list : List String) (substring : String) : Int :=
  go the_list 0
where
  go : List String → Nat → Int
    | [], _ => -1
    | s :: t, i =>
      if containsSubL substring.toList (lowerL s.toList) then (i : Int) else go t (i + 1)

/-- `META_OUTPUT_REGEX = r'\s*(?P<tag>OUTPUT)\s*:\s*(?P<value>.*)'` with `re.I`
(no DOTALL: the value stops at a newline); `none` models a failed `.match`. -/
def meta_output_value (s : String) : Option String :=
  let l := s.toList.dropWhile isPyWs
  if upperL (l.take 6) == "OUTPUT".toList then
    let r0 := (l.drop 6).dropWhile isPyWs
    if r0.head? == some ':' then
      some (((r0.tail.dropWhile isPyWs).takeWhile (fun c => c != '\n')).asString)
    else none
  else none

/-! ## The whitespace/inline-comment flattening of SQL contents

`re.sub(r'(\s+)|(\s*--\s*.*\s+)', ' ', contents)`: scanning left to right, at
a whitespace character the first alternative consumes the greedy whitespace
run; at `--` (necessarily with no preceding whitespace left) the second
alternative consumes `--`, then `\s*`, then a greedy non-newline `.*`, then a
mandatory whitespace run `\s+`, backtracking `.*` and then `\s*` downwards
until the trailing `\s+` can match. Each match is replaced by one space. -/

/-- length of the leading whitespace run. -/
def wsRunLen (l : List Char) : Nat := (l.takeWhile isPyWs).length

/-- length of the leading non-newline run (regex `.` without DOTALL). -/
def lineRunLen (l : List Char) : Nat := (l.takeWhile (fun c => c != '\n')).length

/-- largest `b` at most the given bound such that a nonempty whitespace run
follows `r.drop b`; returns `b` plus that greedy run (`.*\s+`). -/
def bestDotStar (r : List Char) : Nat → Option Nat
  | 0 => if wsRunLen r ≥ 1 then some (wsRunLen r) else none
  | b + 1 =>
    if wsRunLen (r.drop (b + 1)) ≥ 1 then some (b + 1 + wsRunLen (r.drop (b + 1)))
    else bestDotStar r b

/-- matched length of `\s*.*\s+` at the head of `r` (with backtracking), if any. -/
def alt2Star (r : List Char) : Nat → Option Nat
  | 0 => bestDotStar r (lineRunLen r)
  | a + 1 =>
    match bestDotStar (r.drop (a + 1)) (lineRunLen (r.drop (a + 1))) with
    | some n => some (a + 1 + n)
    | none => alt2Star r a

def alt2SuffixLen (r : List Char) : Option Nat := alt2Star r (wsRunLen r)

/-- the scanner of `re.sub(r'(\s+)|(\s*--\s*.*\s+)', ' ', s)`; fuel bounds the
recursion (the scan consumes at least one character per step). -/
def py_sub_aux : Nat → List Char → List Char
  | 0, l => l
  | _ + 1, [] => []
  | fuel + 1, c :: rest =>
    if isPyWs c then ' ' :: py_sub_aux fuel (rest.dropWhile isPyWs)
    else if startsWithL (c :: rest) ['-', '-'] then
      match alt2SuffixLen (rest.drop 1) with
      | some n => ' ' :: py_sub_aux fuel ((rest.drop 1).drop n)
      | none => c :: py_sub_aux fuel rest
    else c :: py_sub_aux fuel rest

def py_sub_ws_comment (s : String) : String :=
  (py_sub_aux (s.toList.length + 1) s.toList).asString

/-! ## process_token -/

/-- membership test `x in m` on a live iterator: consumes up to and including
the first match, or the whole iterator on failure; returns the verdict and
the remaining elements. -/
def iterContains (x : String) : List String → Bool × List String
  | [] => (false, [])
  | y :: ys => if y == x then (true, ys) else iterContains x ys

/-- truthiness of an optional string (`None` and `''` are falsy). -/
def truthy : Option String → Bool
  | none => false
  | some s => s != ""

/-- the SQL branch of `BaseConverter.process_token` (lines 226-236).
`meta` is popped from the params; the three `in` tests consume the live
iterator in order (the `elif` one only runs when EXCLUDE was not found); the
`processed_token = {}` assigned under EXCLUDE is dead, because line 236
unconditionally rebuilds `processed_token` from `formatted_sql`. -/
def process_sql_token (contents : String) (existing_params : Params) :
    Option ProcessedToken × Params :=
  let meta0 := existing_params.meta.getD []
  let p := { existing_params with meta := none }
  let formatted0 := pyStrip (py_sub_ws_comment contents)
  let r1 := iterContains "exclude" meta0
  let r2 :=
    if r1.1 then (formatted0, r1.2)
    else
      let rm := iterContains "multiline" r1.2
      (if rm.1 then pyStrip contents else formatted0, rm.2)
  let r3 := iterContains "clear_out" r2.2
  let _ := r3
  (some ⟨.text r2.1, .SQL, p⟩, p)

/-- lines 211-220 of `process_token`: parse the directives of a meta comment,
rewrite `output` when an OUTPUT directive is present (appending a
`clear_out` marker), and store the (lazy) lower-cased command iterator under
`meta`. The error case models `None['value']` (a `TypeError`), which the
shape of `findall` output makes unreachable. -/
def meta_directives (outfile_type : String) (contents : String) (existing_params : Params) :
    Except PyErr Params :=
  let raw_meta := flatten_pairs (raw_meta_findall contents)
  let output_provided := index_containing_substring raw_meta "output"
  if output_provided != -1 then
    let popped := (raw_meta.get? output_provided.toNat).getD ""
    match meta_output_value popped with
    | none => .error (.TypeError "NoneType object is not subscriptable")
    | some new_output =>
      let se := osp_splitext existing_params.output
      let raw2 := raw_meta.eraseIdx output_provided.toNat ++ ["clear_out"]
      let cmds := (raw2.filter (fun s => s != "")).map pyLower
      .ok { existing_params with
              output := osp_join se.1 (new_output ++ (if se.2 != "" then se.2 else outfile_type)),
              meta := some cmds }
  else
    let cmds := (raw_meta.filter (fun s => s != "")).map pyLower
    .ok { existing_params with meta := some cmds }

/-- `BaseConverter.process_token` (lines 184-239). `outfile_type` stands for
`self.config['outfile_type']`; the token list stands for the shared
`self.token_source` generator (the returned list is what remains of it).
The recursive call of the meta branch re-enters the SQL branch, which is
what `process_sql_token` is. -/
def process_token (outfile_type : String) (token : Token) (stream : List Token)
    (existing_params : Params) :
    Except PyErr (Option ProcessedToken × Params × List Token) :=
  match token with
  | .LINE_COMMENT contents =>
    if existing_params.allow_comments then
      .ok (some ⟨.text contents, .LINE_COMMENT, existing_params⟩, existing_params, stream)
    else .ok (none, existing_params, stream)
  | .BLOCK_COMMENT contents =>
    if existing_params.allow_comments then
      .ok (some ⟨.text contents, .BLOCK_COMMENT, existing_params⟩, existing_params, stream)
    else .ok (none, existing_params, stream)
  | .GROUP_TAG g =>
    if pyLower g.tag == "startgroup" then
      let p1 :=
        if truthy g.output then
          { existing_params with output := osp_normcase (osp_join (osp_dirname existing_params.output) (g.output.getD "" ++ outfile_type)) }
        else if (osp_splitext existing_params.output).2 == "" then
          { existing_params with output := osp_join existing_params.output ("default" ++ outfile_type) }
        else existing_params
      let p2 := { p1 with group := p1.group ++ [g.name] }
      .ok (some ⟨.groupKV g, .GROUP_TAG, p2⟩, p2, stream)
    else
      match existing_params.group with
      | [] => .error (.IndexError "pop from empty list")
      | _ :: _ =>
        let p1 := { existing_params with group := existing_params.group.dropLast }
        if p1.group.isEmpty then
          let g1 := { g with output := some existing_params.output }
          let p2 := { p1 with output := osp_join (osp_dirname existing_params.output) ("default" ++ outfile_type) }
          .ok (some ⟨.groupKV g1, .GROUP_TAG, p2⟩, p2, stream)
        else
          let p2 := { p1 with output := osp_dirname existing_params.output ++ outfile_type }
          .ok (some ⟨.groupKV g, .GROUP_TAG, p2⟩, p2, stream)
  | .META_COMMENT contents =>
    match meta_directives outfile_type contents existing_params with
    | .error e => .error e
    | .ok p2 =>
      match stream with
      | [] => .error .StopIteration
      | .SQL c :: rest =>
        let r := process_sql_token c p2
        .ok (r.1, r.2, rest)
      | sql_token :: rest =>
        let _ := rest
        .error (.ValueError ("Meta comment not preceeding sql token. meta token followed by "
          ++ sql_token.type.name ++ " token."))
  | .SQL contents =>
    let r := process_sql_token contents existing_params
    .ok (r.1, r.2, stream)
  | .HEADER _ _ => .error (.ValueError "Unknown Token")

/-! ## process_header -/

/-- `BaseConverter.process_header` (lines 162-182). `cwd` models `os.getcwd()`;
the config dict is threaded explicitly; the required-field check currently
covers `dialect` only. -/
def process_header (cwd : String) : List Token → List (String × String) →
    Except PyErr (List (String × String) × List Token)
  | [], _ => .error .StopIteration
  | token :: rest, config =>
    match token with
    | .HEADER tag value =>
      if pyLower tag != "endhead" then
        process_header cwd rest (dict_set config (pyLower tag) value)
      else
        let config2 :=
          if dict_contains config "output" then
            dict_set config "output" (osp_normcase ((dict_get config "output").getD ""))
          else dict_set config "output" cwd
        if dict_contains config2 "dialect" then .ok (config2, rest)
        else .error (.LookupError "Missing a required field: \x27dialect\x27")
    | _ => process_header cwd rest config

/-! ## The lexer's per-line dispatch (`tokenizer`, lines 113-147)

`tokenizer` reads a line and dispatches on it: blank lines are tossed; a line
starting with `--` is a HEADER token if HEADER_REGEX matches (else a
LINE_COMMENT, crashing on `None['contents']` if LINE_COMMENT_REGEX fails); a
line starting with `/*` either closes on the same line (GROUP_TAG via
GROUP_REGEX, else BLOCK_COMMENT) or opens a multi-line block; a line whose
first space-delimited word is in `SQL_STARTERS` (an exact, case-sensitive set
membership test) starts a SQL statement; anything else is silently dropped. -/

def SQL_STARTERS : List String := ["SELECT", "PREPARE", "CREATE", "DROP", "WITH", "EXECUTE", "RAISE"]

/-- the (exact, case-sensitive) set membership test `word in SQL_STARTERS`. -/
def elemStr (l : List String) (s : String) : Bool :=
  match l with
  | [] => false
  | x :: t => x == s || elemStr t s

def HEADER_FIELDS : List String := ["version", "output", "dialect", "endhead"]

/-- `block[-1].lstrip().split(' ', 1)[0]`. -/
def first_word (line : String) : String :=
  ((lstripL line.toList).takeWhile (fun c => c != ' ')).asString

/-- match one of the given tags case-insensitively as a prefix (the regex
alternation: the tags have pairwise distinct first letters, so order is
irrelevant); returns the captured slice and the rest. -/
def matchTag (r : List Char) : List String → Option (String × List Char)
  | [] => none
  | t :: ts =>
    if upperL (r.take t.length) == upperL t.toList then
      some ((r.take t.length).asString, r.drop t.length)
    else matchTag r ts

/-- `HEADER_REGEX.match`: `\s*--\s*(version|output|dialect|endhead)\s*:\s*(.*)`
with `re.I` (the value group stops at a newline). -/
def header_match (line : String) : Option (String × String) :=
  let l := lstripL line.toList
  if startsWithL l ['-', '-'] then
    match matchTag ((l.drop 2).dropWhile isPyWs) HEADER_FIELDS with
    | some (tagCap, r1) =>
      match r1.dropWhile isPyWs with
      | ':' :: r2 => some (tagCap, ((r2.dropWhile isPyWs).takeWhile (fun c => c != '\n')).asString)
      | _ => none
    | none => none
  else none

/-- `LINE_COMMENT_REGEX.match`: `\s*--\s+(?P<contents>.*)$` (note the
mandatory whitespace after `--`). -/
def line_comment_match (line : String) : Option String :=
  let l := lstripL line.toList
  if startsWithL l ['-', '-'] then
    let r := l.drop 2
    let w := r.takeWhile isPyWs
    if w.isEmpty then none
    else some (((r.drop w.length).takeWhile (fun c => c != '\n')).asString)
  else none

/-- does `:` `\s*` `OUTPUT` `\s*` `:` match here (case-insensitively)? On
success returns the text after the second colon and its whitespace. -/
def outputClauseAt : List Char → Option (List Char)
  | ':' :: r =>
    let r1 := r.dropWhile isPyWs
    if upperL (r1.take 6) == "OUTPUT".toList then
      match (r1.drop 6).dropWhile isPyWs with
      | ':' :: r2 => some (r2.dropWhile isPyWs)
      | _ => none
    else none
  | _ => none

/-- first position of an OUTPUT clause; returns the text before it and the
override text after it. -/
def findOutputClause : List Char → Option (List Char × List Char)
  | [] => none
  | c :: rest =>
    match outputClauseAt (c :: rest) with
    | some ov => some ([], ov)
    | none => (findOutputClause rest).map (fun pr => (c :: pr.1, pr.2))

/-- `GROUP_REGEX.match` on a single-line block comment:
`\s*/\*\s*(startgroup|endgroup)\s*:\s*(.*?)\s*(?::\s*OUTPUT\s*:\s*(.*?))?\s*\*/\s*$`
with `re.I`. The lazy name group extends to the first OUTPUT clause if one
occurs, else to the closing `*/`. -/
def group_match (line : String) : Option GroupDict :=
  let l := lstripL line.toList
  if startsWithL l ['/', '*'] then
    match matchTag ((l.drop 2).dropWhile isPyWs) ["startgroup", "endgroup"] with
    | none => none
    | some (tagCap, r1) =>
      match r1.dropWhile isPyWs with
      | ':' :: r2 =>
        let e := rstripL (r2.dropWhile isPyWs)
        if endsWithL e ['*', '/'] then
          let mid := rstripL (e.take (e.length - 2))
          match findOutputClause mid with
          | some (namePart, ov) => some ⟨tagCap, (rstripL namePart).asString, some (rstripL ov).asString⟩
          | none => some ⟨tagCap, mid.asString, none⟩
        else none
      | _ => none
  else none

/-- first occurrence of `*/`; returns the text before it. -/
def findCloseStar : List Char → Option (List Char)
  | [] => none
  | '*' :: '/' :: _ => some []
  | c :: rest => (findCloseStar rest).map (fun l => c :: l)

/-- `BLOCK_COMMENT_REGEX.match`: `\s*/*\*\s*(?P<contents>.*?)\s*\*/\s*` with
`re.I|re.S` (the `/*` in the pattern is a quantified `/`, not a literal
opener!); the lazy contents group stops at the first `*/`. -/
def block_comment_match (line : String) : Option String :=
  let l := (lstripL line.toList).dropWhile (fun c => c == '/')
  match l with
  | '*' :: r =>
    match findCloseStar (r.dropWhile isPyWs) with
    | some before => some (rstripL before).asString
    | none => none
  | _ => none

/-- `META_COMMENT_REGEX.search` viewed as a Boolean: the first alternative
(`/*` being a quantified `/`) fires on any case-insensitive occurrence of
EXCLUDE or MULTILINE; the second needs an `OUTPUT\s*:` followed by `*/`. -/
def meta_comment_search (s : String) : Bool :=
  (findFirstKw s.toList).isSome ||
    (match findOutputColon s.toList with
     | some r => containsSubL ['*', '/'] r
     | none => false)

/-- the classification of the first line of a block by `tokenizer`. -/
inductive LineClass where
  | EMPTY
  | HEADER_LINE (tag value : String)
  | LINE_COMMENT_LINE (contents : String)
  | LINE_COMMENT_CRASH
  | GROUP_LINE (g : GroupDict)
  | BLOCK_LINE (contents : String)
  | BLOCK_CRASH
  | BLOCK_OPEN
  | SQL_LINE (contents : String)
  | SQL_OPEN
  | DROPPED
deriving DecidableEq, Repr

/-- one dispatch step of `tokenizer` on a line (lines 113-147): which token
(if any) the line begins. `BLOCK_OPEN`/`SQL_OPEN` mean further lines are
consumed; `DROPPED` is the silent final else (the loop just reads the next
line); the CRASH classes model `None[...]` TypeErrors of failed regexes. -/
def classify_line (line : String) : LineClass :=
  if (stripL line.toList).isEmpty then .EMPTY
  else if startsWithL (lstripL line.toList) ['-', '-'] then
    match header_match line with
    | some (tag, value) => .HEADER_LINE tag value
    | none =>
      match line_comment_match line with
      | some contents => .LINE_COMMENT_LINE contents
      | none => .LINE_COMMENT_CRASH
  else if startsWithL (lstripL line.toList) ['/', '*'] then
    if endsWithL (rstripL line.toList) ['*', '/'] then
      match group_match line with
      | some g => .GROUP_LINE g
      | none =>
        match block_comment_match line with
        | some contents => .BLOCK_LINE contents
        | none => .BLOCK_CRASH
    else .BLOCK_OPEN
  else if elemStr SQL_STARTERS (first_word line) then
    if endsWithL (rstripL line.toList) [';'] then .SQL_LINE (pyStrip line) else .SQL_OPEN
  else .DROPPED

/-! ## The structured-document (JSON) emitter -/

/-- an open `w+` text file: contents and current position. `write` overwrites
in place from the position and extends at the end; `seek`/`tell` move and
report the position. -/
structure FileState where
  content : List Char
  pos : Nat
deriving DecidableEq, Repr

def fwrite (f : FileState) (s : String) : FileState :=
  { content := f.content.take f.pos ++ s.toList ++ f.content.drop (f.pos + s.toList.length),
    pos := f.pos + s.toList.length }

def fseek (f : FileState) (n : Nat) : FileState := { f with pos := n }

def ftell (f : FileState) : Nat := f.pos

/-- `json.dumps` on one character of a string value. -/
def json_dumps_char (c : Char) : List Char :=
  if c == '"' then ['\\', '"']
  else if c == '\\' then ['\\', '\\']
  else if c == '\n' then ['\\', 'n']
  else if c == '\t' then ['\\', 't']
  else if c == '\r' then ['\\', 'r']
  else [c]

/-- `json.dumps` of a string value (ASCII printable fragment). -/
def json_dumps (s : String) : String :=
  ("\"" ++ ((s.toList.map json_dumps_char).flatten).asString ++ "\"")

/-- the `self.outfiles` table plus the emitter state of `JSONConverter`. -/
structure EmitState where
  outfiles : List (String × FileState)
  last_indent : Option String
  last_line : String
deriving DecidableEq, Repr

def lookupFile (t : List (String × FileState)) (k : String) : Option FileState :=
  match t with
  | [] => none
  | (k2, f) :: rest => if k2 == k then some f else lookupFile rest k

def storeFile (t : List (String × FileState)) (k : String) (f : FileState) :
    List (String × FileState) :=
  match t with
  | [] => [(k, f)]
  | (k2, f2) :: rest => if k2 == k then (k2, f) :: rest else (k2, f2) :: storeFile rest k f

/-- `PREPARE_REGEX.match`: `PREPARE\s+(\w+)(?:\s*\(.+\))?\s+AS\s+(.*);` with
`re.I|re.S`; the greedy DOTALL `(.*)` makes the query run to the last
semicolon. -/
def isWordChar (c : Char) : Bool := c.isAlphanum || c == '_'

def prepare_match (s : String) : Option (String × String) :=
  let l := s.toList
  if upperL (l.take 7) == "PREPARE".toList then
    let r := l.drop 7
    let w := r.takeWhile isPyWs
    if w.isEmpty then none
    else
      let r1 := r.drop w.length
      let nm := r1.takeWhile isWordChar
      if nm.isEmpty then none
      else
        let afterName := r1.drop nm.length
        let afterOpt :=
          match (afterName.dropWhile isPyWs) with
          | '(' :: _ =>
            let r2 := afterName.dropWhile isPyWs
            let j := rfindIdx ')' r2
            if j > 1 then (r2.drop (j + 1).toNat) else afterName
          | _ => afterName
        let w2 := afterOpt.takeWhile isPyWs
        if w2.isEmpty then none
        else
          let r3 := afterOpt.drop w2.length
          if upperL (r3.take 2) == "AS".toList then
            let r4 := r3.drop 2
            let w3 := r4.takeWhile isPyWs
            if w3.isEmpty then none
            else
              let body := r4.drop w3.length
              let k := rfindIdx ';' body
              if k == -1 then none
              else some (nm.asString, (body.take k.toNat).asString)
          else none
  else none

/-- `query.replace('\n', ' ')`. -/
def replace_newlines (s : String) : String :=
  (s.toList.map (fun c => if c == '\n' then ' ' else c)).asString

/-- `BaseConverter.get_outfile` followed by `JSONConverter.get_outfile`
(lines 257-267 and 312-318): open (truncated) and register the file if new,
and write the preamble when the position is 0; `config['json_space']` is
evaluated before `config['version']` in the format call. Returns the updated
state and the normalised key. -/
def get_outfile_json (config : List (String × String)) (es : EmitState)
    (outfile_path : String) : Except PyErr (EmitState × String) :=
  let key := osp_normcase outfile_path
  let f := (lookupFile es.outfiles key).getD ⟨[], 0⟩
  if ftell f == 0 then
    let f1 := fwrite f "\x7b\n"
    match dict_get config "json_space" with
    | none => .error (.KeyError "json_space")
    | some js =>
      match dict_get config "version" with
      | none => .error (.KeyError "version")
      | some v =>
        let f2 := fwrite f1 (js ++ "\"version\": " ++ json_dumps v ++ ",\n")
        .ok ({ es with outfiles := storeFile es.outfiles key f2, last_indent := some js }, key)
  else .ok ({ es with outfiles := storeFile es.outfiles key f }, key)

/-- `JSONConverter.comma_check` (lines 320-325): when the tracked last line
ends with a comma, seek `len(last_indent) - 1` characters back from the
current position and overwrite one character with a newline. -/
def comma_check (es : EmitState) (f : FileState) : Except PyErr FileState :=
  let prev_line := pyRstrip es.last_line
  if endsWithL prev_line.toList [','] then
    match es.last_indent with
    | none => .error (.TypeError "object of type NoneType has no len")
    | some ind =>
      let seek_dist : Int := (ind.toList.length : Int) - 1
      let target : Int := (ftell f : Int) - seek_dist
      if target < 0 then .error (.ValueError "negative seek position")
      else .ok (fwrite (fseek f target.toNat) "\n")
  else .ok f

/-- `JSONConverter.output_token` (lines 327-349). -/
def output_token_json (config : List (String × String)) (es : EmitState) (key : String)
    (token : ProcessedToken) : Except PyErr EmitState :=
  match lookupFile es.outfiles key with
  | none => .error (.KeyError key)
  | some f =>
    match token.type, token.contents with
    | .SQL, .text contents =>
      if ¬ startsWithL (lowerL contents.toList) "prepare".toList then .ok es
      else
        match prepare_match contents with
        | none => .error (.TypeError "NoneType object has no attribute groups")
        | some (key_name, query) =>
          let query2 := replace_newlines query
          match es.last_indent with
          | none => .error (.TypeError "unsupported operand NoneType")
          | some ind =>
            let line := ind ++ "\"" ++ key_name ++ "\": " ++ json_dumps query2 ++ ",\n"
            .ok { es with outfiles := storeFile es.outfiles key (fwrite f line),
                          last_line := line }
    | .SQL, _ => .error (.TypeError "contents not a string")
    | .GROUP_TAG, .groupKV g =>
      match es.last_indent with
      | none => .error (.TypeError "unsupported operand NoneType")
      | some ind =>
        if pyLower g.tag == "startgroup" then
          match dict_get config "json_space" with
          | none => .error (.KeyError "json_space")
          | some js =>
            let line := ind ++ "\"" ++ g.name ++ "\": \x7b\n"
            .ok { es with outfiles := storeFile es.outfiles key (fwrite f line),
                          last_line := line,
                          last_indent := some (ind ++ js) }
        else
          match dict_get config "json_space" with
          | none => .error (.KeyError "json_space")
          | some js =>
            let ind2 := (ind.toList.take js.toList.length).asString
            let es2 := { es with last_indent := some ind2 }
            match comma_check es2 f with
            | .error e => .error e
            | .ok f2 =>
              let line := ind2 ++ "\x7d,\n"
              .ok { es2 with outfiles := storeFile es2.outfiles key (fwrite f2 line),
                             last_line := line }
    | .GROUP_TAG, _ => .error (.TypeError "contents not a dict")
    | _, _ => .ok es

/-- the routing of `BaseConverter.output_tokens` (lines 272-278): every token
resolves through its snapshot output path, except an EndGroup token, which
prefers the path recorded on its contents (`or` falls back on falsy). -/
def route_path (token : ProcessedToken) : String :=
  match token.type, token.contents with
  | .GROUP_TAG, .groupKV g =>
    if pyLower g.tag == "startgroup" then token.existing_params.output
    else
      match g.output with
      | some s => if s != "" then s else token.existing_params.output
      | none => token.existing_params.output
  | _, _ => token.existing_params.output

/-- one loop iteration of `output_tokens`: route, open, emit. -/
def output_tokens_step (config : List (String × String)) (es : EmitState)
    (token : ProcessedToken) : Except PyErr EmitState :=
  match get_outfile_json config es (route_path token) with
  | .error e => .error e
  | .ok (es2, key) => output_token_json config es2 key token

/-- the final loop of `JSONConverter.output_tokens` (lines 352-356): for each
open file, `comma_check` then write the closing brace. -/
def close_files_aux (es : EmitState) : List String → Except PyErr EmitState
  | [] => .ok es
  | k :: ks =>
    match lookupFile es.outfiles k with
    | none => .error (.KeyError k)
    | some f =>
      match comma_check es f with
      | .error e => .error e
      | .ok f2 =>
        close_files_aux { es with outfiles := storeFile es.outfiles k (fwrite f2 "\x7d") } ks

/-- `JSONConverter.output_tokens` on an already-processed token stream. -/
def output_tokens_json (config : List (String × String)) (tokens : List ProcessedToken) :
    Except PyErr EmitState :=
  match tokens.foldlM (output_tokens_step config) ⟨[], none, ""⟩ with
  | .error e => .error e
  | .ok es => close_files_aux es (es.outfiles.map Prod.fst)

/-- does the text contain a comma followed by nothing but whitespace before a
closing brace (the dangling comma that breaks the nested-object syntax)? -/
def comma_before_brace : List Char → Bool
  | [] => false
  | c :: rest =>
    (c == ',' &&
      (match rest.dropWhile isPyWs with
       | d :: _ => d == '\x7d'
       | [] => false))
    || comma_before_brace rest

/-! ## Claim theorems -/

/-- C1: the claim states that a SQL token preceded by an EXCLUDE meta-comment
produces no ProcessedToken while the pending meta set is cleared. The code
clears the meta set but does emit the statement: the `processed_token = {}`
of the EXCLUDE branch is dead, because line 236 unconditionally rebuilds the
processed token. Evaluating `process_token` on an EXCLUDE meta-comment
followed by `SELECT 1;` yields an emitted token carrying the statement (and
`meta` is cleared in the resulting params). -/
theorem C1_exclude_emits_anyway :
    process_token ".json" (.META_COMMENT "EXCLUDE") [.SQL "SELECT 1;"]
      ⟨"/out/default.json", [], false, none⟩ =
    .ok (some ⟨.text "SELECT 1;", .SQL, ⟨"/out/default.json", [], false, none⟩⟩,
         ⟨"/out/default.json", [], false, none⟩, []) := by
  rfl

/-- C2: the claim states that a MULTILINE meta-comment preserves the interior
line breaks of the following statement. The code stores the directives as a
lazy `map` iterator; the `'exclude' in meta` test exhausts it, so the
subsequent `'multiline' in meta` test is always False and the flattened form
is emitted (first conjunct: the line break of `SELECT 1,\n  2;` collapses to
a space despite MULTILINE). The no-directive half of the claim does hold on
whitespace-only statements (second conjunct). -/
theorem C2_multiline_ignored :
    process_token ".json" (.META_COMMENT "MULTILINE") [.SQL "SELECT 1,\n  2;"]
      ⟨"/out/default.json", [], false, none⟩ =
    .ok (some ⟨.text "SELECT 1, 2;", .SQL, ⟨"/out/default.json", [], false, none⟩⟩,
         ⟨"/out/default.json", [], false, none⟩, [])
    ∧ process_token ".json" (.SQL "SELECT 1,\n   2,\t3;") []
      ⟨"/out/default.json", [], false, none⟩ =
    .ok (some ⟨.text "SELECT 1, 2, 3;", .SQL, ⟨"/out/default.json", [], false, none⟩⟩,
         ⟨"/out/default.json", [], false, none⟩, []) := by
  exact ⟨rfl, rfl⟩

/-- C3: the claim states that `OUTPUT: admin` redirects only the next
statement to a sibling path ending in `admin.json`, restoring the previous
output afterwards. The code joins under the extension-stripped base (giving
the child path `/out/default/admin.json`, not the sibling
`/out/admin.json`), and never restores: the `clear_out` branch is `pass`
(the restoring assignment is commented out), so the params returned to the
caller keep the redirected path and a subsequent SQL token is routed to it. -/
theorem C3_meta_output_redirect_persists :
    process_token ".json" (.META_COMMENT "OUTPUT: admin") [.SQL "SELECT 1;"]
      ⟨"/out/default.json", [], false, none⟩ =
    .ok (some ⟨.text "SELECT 1;", .SQL, ⟨"/out/default/admin.json", [], false, none⟩⟩,
         ⟨"/out/default/admin.json", [], false, none⟩, [])
    ∧ ("/out/default/admin.json" : String) ≠ "/out/admin.json"
    ∧ ("/out/default/admin.json" : String) ≠ "/out/default.json"
    ∧ process_token ".json" (.SQL "SELECT 2;") []
      ⟨"/out/default/admin.json", [], false, none⟩ =
    .ok (some ⟨.text "SELECT 2;", .SQL, ⟨"/out/default/admin.json", [], false, none⟩⟩,
         ⟨"/out/default/admin.json", [], false, none⟩, []) := by
  exact ⟨rfl, by decide, by decide, rfl⟩

/-- C5: the claim states the emitted document never has a comma before a
closing brace, the last written line being rewritten to strip its trailing
comma. Running the emitter on a stream with one routed token and zero
entries leaves the preamble's trailing comma dangling before the final brace
(`last_line` never tracks the preamble write), and with one PREPARE entry
the `len(last_indent) - 1` seek arithmetic overwrites the closing quote of
the value instead of the comma (the artifact no longer contains
`SELECT 1"`). -/
theorem C5_dangling_comma :
    (output_tokens_json [("outfile_type", ".json"), ("json_space", "    "), ("version", "0.1")]
      [⟨.text "SELECT 1;", .SQL, ⟨"/out/default.json", [], false, none⟩⟩] =
      .ok ⟨[("/out/default.json", ⟨"\x7b\n    \"version\": \"0.1\",\n\x7d".toList, 25⟩)],
           some "    ", ""⟩)
    ∧ comma_before_brace "\x7b\n    \"version\": \"0.1\",\n\x7d".toList = true
    ∧ (output_tokens_json [("outfile_type", ".json"), ("json_space", "    "), ("version", "0.1")]
      [⟨.text "SELECT 1;", .SQL, ⟨"/out/default.json", [], false, none⟩⟩,
       ⟨.text "PREPARE get_user AS SELECT 1;", .SQL, ⟨"/out/default.json", [], false, none⟩⟩] =
      .ok ⟨[("/out/default.json",
             ⟨"\x7b\n    \"version\": \"0.1\",\n    \"get_user\": \"SELECT 1\n\x7d\n".toList, 51⟩)],
           some "    ", "    \"get_user\": \"SELECT 1\",\n"⟩)
    ∧ containsSubL "SELECT 1\"".toList
        "\x7b\n    \"version\": \"0.1\",\n    \"get_user\": \"SELECT 1\n\x7d\n".toList = false := by
  exact ⟨rfl, rfl, rfl, rfl⟩

/-- C7: an EndGroup token processed in a context whose group stack is empty
fails (the `pop()` of line 204 raises IndexError on the empty list before
anything else happens); the spec's `UnbalancedGroup` is the abstract name of
this failure. -/
theorem C7_endgroup_empty_stack (g : GroupDict) (stream : List Token) (p : Params)
    (outfile_type : String) (hg : p.group = []) (ht : pyLower g.tag = "endgroup") :
    process_token outfile_type (.GROUP_TAG g) stream p =
      .error (.IndexError "pop from empty list") := by
  simp [process_token, ht, hg]

theorem C7_endgroup_empty_stack_witness :
    process_token ".txt" (.GROUP_TAG ⟨"ENDGROUP", "g", none⟩) [] ⟨"/base", [], true, none⟩ =
      .error (.IndexError "pop from empty list") :=
  C7_endgroup_empty_stack ⟨"ENDGROUP", "g", none⟩ [] ⟨"/base", [], true, none⟩ ".txt" rfl rfl

/-- C4 as stated is false: from a context with an empty stack and a bare
directory output `/base`, a StartGroup (no override) turns the output into
`/base/default.txt` and the matching EndGroup leaves it there, so the output
after EndGroup differs from the output before StartGroup. -/
theorem C4_counterexample :
    process_token ".txt" (.GROUP_TAG ⟨"STARTGROUP", "g", none⟩) [] ⟨"/base", [], true, none⟩ =
      .ok (some ⟨.groupKV ⟨"STARTGROUP", "g", none⟩, .GROUP_TAG,
                 ⟨"/base/default.txt", ["g"], true, none⟩⟩,
           ⟨"/base/default.txt", ["g"], true, none⟩, [])
    ∧ process_token ".txt" (.GROUP_TAG ⟨"ENDGROUP", "g", none⟩) []
        ⟨"/base/default.txt", ["g"], true, none⟩ =
      .ok (some ⟨.groupKV ⟨"ENDGROUP", "g", some "/base/default.txt"⟩, .GROUP_TAG,
                 ⟨"/base/default.txt", [], true, none⟩⟩,
           ⟨"/base/default.txt", [], true, none⟩, [])
    ∧ ("/base/default.txt" : String) ≠ "/base" := by
  exact ⟨rfl, rfl, by decide⟩

/-- C4 amended: the push/pop pair with no OUTPUT override restores the output
path exactly when the stack is empty before StartGroup and the current
output is already a `default<outfile_type>` leaf (it has an extension and
equals `join(dirname(output), "default" + outfile_type)`); then StartGroup
leaves the path unchanged and the matching EndGroup recomputes the same
leaf. -/
theorem C4_amended (p : Params) (gname outfile_type : String) (stream : List Token)
    (h1 : p.group = [])
    (h2 : (osp_splitext p.output).2 ≠ "")
    (h3 : osp_join (osp_dirname p.output) ("default" ++ outfile_type) = p.output) :
    process_token outfile_type (.GROUP_TAG ⟨"STARTGROUP", gname, none⟩) stream p =
      .ok (some ⟨.groupKV ⟨"STARTGROUP", gname, none⟩, .GROUP_TAG,
                 { p with group := [gname] }⟩,
           { p with group := [gname] }, stream)
    ∧ process_token outfile_type (.GROUP_TAG ⟨"ENDGROUP", gname, none⟩) stream
        { p with group := [gname] } =
      .ok (some ⟨.groupKV ⟨"ENDGROUP", gname, some p.output⟩, .GROUP_TAG,
                 { p with group := [] }⟩,
           { p with group := [] }, stream) := by
  obtain ⟨po, pg, pa, pm⟩ := p
  simp only at h1 h2 h3
  subst h1
  have hs : pyLower "STARTGROUP" = "startgroup" := by decide
  have he : pyLower "ENDGROUP" = "endgroup" := by decide
  constructor
  · have hse : ((osp_splitext po).2 == "") = false := beq_eq_false_iff_ne.mpr h2
    simp [process_token, truthy, hse, hs]
  · simp [process_token, he, h3]

theorem C4_amended_witness :
    process_token ".txt" (.GROUP_TAG ⟨"STARTGROUP", "g", none⟩) []
        ⟨"/base/default.txt", [], true, none⟩ =
      .ok (some ⟨.groupKV ⟨"STARTGROUP", "g", none⟩, .GROUP_TAG,
                 ⟨"/base/default.txt", ["g"], true, none⟩⟩,
           ⟨"/base/default.txt", ["g"], true, none⟩, [])
    ∧ process_token ".txt" (.GROUP_TAG ⟨"ENDGROUP", "g", none⟩) []
        ⟨"/base/default.txt", ["g"], true, none⟩ =
      .ok (some ⟨.groupKV ⟨"ENDGROUP", "g", some "/base/default.txt"⟩, .GROUP_TAG,
                 ⟨"/base/default.txt", [], true, none⟩⟩,
           ⟨"/base/default.txt", [], true, none⟩, []) :=
  C4_amended ⟨"/base/default.txt", [], true, none⟩ "g" ".txt" [] rfl (by decide) (by decide)

/-! ## C6: the meta-comment lookahead -/

theorem not_ws_of_toUpper_isUpper {c : Char} (h : c.toUpper.isUpper = true) :
    isPyWs c = false ∧ c ≠ '-' ∧ c ≠ '/' := by
  refine ⟨?_, ?_, ?_⟩
  · by_contra hw
    simp only [Bool.not_eq_false] at hw
    simp only [isPyWs, Bool.or_eq_true, beq_iff_eq] at hw
    rcases hw with ((((h1|h1)|h1)|h1)|h1)|h1 <;> subst h1 <;> exact absurd h (by decide)
  · intro h1; subst h1; exact absurd h (by decide)
  · intro h1; subst h1; exact absurd h (by decide)

theorem findFirstKw_shape : ∀ (l cap rest : List Char), findFirstKw l = some (cap, rest) →
    upperL cap = "EXCLUDE".toList ∨ upperL cap = "MULTILINE".toList := by
  intro l
  induction l with
  | nil => intro cap rest h; simp [findFirstKw] at h
  | cons c t ih =>
    intro cap rest h
    rw [findFirstKw] at h
    split at h
    · rename_i h1
      obtain ⟨hcap, _⟩ := Prod.mk.injEq .. ▸ Option.some.injEq .. ▸ h
      exact Or.inl (hcap ▸ (beq_iff_eq.mp h1))
    · split at h
      · rename_i h2
        obtain ⟨hcap, _⟩ := Prod.mk.injEq .. ▸ Option.some.injEq .. ▸ h
        exact Or.inr (hcap ▸ (beq_iff_eq.mp h2))
      · exact ih cap rest h

theorem findOutputColon_shape : ∀ (l r : List Char), findOutputColon l = some r →
    outputColonAt r = true := by
  intro l
  induction l with
  | nil => intro r h; simp [findOutputColon] at h
  | cons c t ih =>
    intro r h
    rw [findOutputColon] at h
    split at h
    · rename_i h1
      cases h
      exact h1
    · exact ih r h

theorem raw_meta_findall_aux_shape :
    ∀ (fuel : Nat) (l : List Char) (pr : String × String),
      pr ∈ raw_meta_findall_aux fuel l →
      ((upperL pr.1.toList = "EXCLUDE".toList ∨ upperL pr.1.toList = "MULTILINE".toList)
        ∧ pr.2 = "")
      ∨ (pr.1 = "" ∧ outputColonAt pr.2.toList = true) := by
  intro fuel
  induction fuel with
  | zero => intro l pr h; simp [raw_meta_findall_aux] at h
  | succ n ih =>
    intro l pr h
    rw [raw_meta_findall_aux] at h
    cases hfk : findFirstKw l with
    | some pr2 =>
      obtain ⟨cap, rest⟩ := pr2
      rw [hfk] at h
      simp only [List.mem_cons] at h
      rcases h with h | h
      · subst h
        exact Or.inl ⟨findFirstKw_shape l cap rest hfk, rfl⟩
      · exact ih rest pr h
    | none =>
      rw [hfk] at h
      cases hoc : findOutputColon l with
      | some cap2 =>
        rw [hoc] at h
        simp only [List.mem_singleton] at h
        subst h
        exact Or.inr ⟨rfl, findOutputColon_shape l cap2 hoc⟩
      | none =>
        rw [hoc] at h
        simp at h

theorem flatten_pairs_mem : ∀ (l : List (String × String)) (s : String),
    s ∈ flatten_pairs l → ∃ pr, pr ∈ l ∧ (s = pr.1 ∨ s = pr.2) := by
  intro l
  induction l with
  | nil => intro s h; simp [flatten_pairs] at h
  | cons pr2 t ih =>
    intro s h
    obtain ⟨a, b⟩ := pr2
    simp only [flatten_pairs, List.mem_cons] at h
    rcases h with h | h | h
    · exact ⟨(a, b), by simp, Or.inl h⟩
    · exact ⟨(a, b), by simp, Or.inr h⟩
    · obtain ⟨pr, hpr, hs⟩ := ih s h
      exact ⟨pr, by simp [hpr], hs⟩

theorem index_containing_go_spec (sub : String) :
    ∀ (l : List String) (n : Nat),
      index_containing_substring.go sub l n = -1 ∨
      ∃ (j : Nat) (s : String), index_containing_substring.go sub l n = ((n + j : Nat) : Int)
        ∧ l.get? j = some s ∧ containsSubL sub.toList (lowerL s.toList) = true := by
  intro l
  induction l with
  | nil => intro n; left; rfl
  | cons s t ih =>
    intro n
    rw [index_containing_substring.go]
    by_cases hc : containsSubL sub.toList (lowerL s.toList) = true
    · right
      exact ⟨0, s, by rw [if_pos hc]; simp, by simp, hc⟩
    · rw [if_neg hc]
      rcases ih (n + 1) with h | ⟨j, s2, hj, hg, hcc⟩
      · left; exact h
      · right
        refine ⟨j + 1, s2, ?_, by simpa using hg, hcc⟩
        rw [hj]
        congr 1
        omega


theorem meta_output_value_of_colonAt (s : String) (h : outputColonAt s.toList = true) :
    ∃ v, meta_output_value s = some v := by
  unfold outputColonAt at h
  simp only [Bool.and_eq_true, beq_iff_eq] at h
  obtain ⟨h1, h2⟩ := h
  cases hs : s.toList with
  | nil =>
    rw [hs] at h1
    simp [upperL] at h1
  | cons c t =>
    rw [hs] at h1 h2
    have hcu : Char.toUpper c = 'O' := by
      have h1b : Char.toUpper c :: upperL (t.take 5) = 'O' :: "UTPUT".toList := by
        simpa [upperL, List.take_succ_cons] using h1
      exact (List.cons.injEq _ _ _ _ ▸ h1b).1
    have hws : isPyWs c = false :=
      (not_ws_of_toUpper_isUpper (by rw [hcu]; decide)).1
    simp only [meta_output_value]
    rw [hs]
    rw [List.dropWhile_cons_of_neg (by simp [hws])]
    rw [if_pos (by exact beq_iff_eq.mpr h1), if_pos (by exact beq_iff_eq.mpr h2)]
    exact ⟨_, rfl⟩

theorem meta_directives_ok (outfile_type contents : String) (p : Params) :
    ∃ p2, meta_directives outfile_type contents p = .ok p2 ∧ p2.meta ≠ none := by
  simp only [meta_directives]
  by_cases hidx : index_containing_substring (flatten_pairs (raw_meta_findall contents)) "output" = -1
  · rw [hidx]
    simp
  · have hne : (index_containing_substring (flatten_pairs (raw_meta_findall contents)) "output"
        != -1) = true := by simpa using hidx
    rw [if_pos hne]
    rcases index_containing_go_spec "output" (flatten_pairs (raw_meta_findall contents)) 0 with
      h | ⟨j, s, hj, hg, hcc⟩
    · exact absurd h hidx
    · have hj2 : (index_containing_substring (flatten_pairs (raw_meta_findall contents))
          "output").toNat = j := by
        show (index_containing_substring.go "output"
          (flatten_pairs (raw_meta_findall contents)) 0).toNat = j
        rw [hj]; simp
      have hpop : ((flatten_pairs (raw_meta_findall contents)).get?
          (index_containing_substring (flatten_pairs (raw_meta_findall contents))
            "output").toNat).getD "" = s := by
        rw [hj2, hg]; rfl
      rw [hpop]
      have hsmem : s ∈ flatten_pairs (raw_meta_findall contents) := List.get?_mem hg
      obtain ⟨pr, hpr, hcase⟩ := flatten_pairs_mem _ s hsmem
      have hshape := raw_meta_findall_aux_shape _ _ pr hpr
      have hcolon : outputColonAt s.toList = true := by
        rcases hshape with ⟨hkw, h2⟩ | ⟨h1, h2⟩
        · rcases hcase with hc1 | hc1
          · exfalso
            rcases hkw with hk | hk
            · have hls : lowerL s.toList = "exclude".toList := by
                rw [hc1, ← lowerL_upperL, hk]
                decide
              rw [hls] at hcc
              exact absurd hcc (by decide)
            · have hls : lowerL s.toList = "multiline".toList := by
                rw [hc1, ← lowerL_upperL, hk]
                decide
              rw [hls] at hcc
              exact absurd hcc (by decide)
          · exfalso
            rw [hc1, h2] at hcc
            exact absurd hcc (by decide)
        · rcases hcase with hc1 | hc1
          · exfalso
            rw [hc1, h1] at hcc
            exact absurd hcc (by decide)
          · rw [hc1]; exact h2
      obtain ⟨v, hv⟩ := meta_output_value_of_colonAt s hcolon
      rw [hv]
      simp

/-- C6: a meta-comment must be immediately followed by a SQL token from the
same stream: any other next kind raises the ValueError naming the actual
kind (first conjunct, for every directive text, context and non-SQL next
token); a SQL next token is consumed from the stream and processed by the
same `process_token` with the parsed meta directives stored in the params
(second conjunct): the caller receives the remainder `rest`, never seeing
the SQL token again. -/
theorem C6_meta_lookahead :
    (∀ (contents outfile_type : String) (p : Params) (nt : Token) (rest : List Token),
      nt.type ≠ .SQL →
      process_token outfile_type (.META_COMMENT contents) (nt :: rest) p =
        .error (.ValueError ("Meta comment not preceeding sql token. meta token followed by "
          ++ nt.type.name ++ " token.")))
    ∧ (∀ (contents outfile_type q : String) (p : Params) (rest : List Token),
      ∃ p2, meta_directives outfile_type contents p = .ok p2 ∧ p2.meta ≠ none ∧
        process_token outfile_type (.META_COMMENT contents) (.SQL q :: rest) p =
          process_token outfile_type (.SQL q) rest p2) := by
  constructor
  · intro contents outfile_type p nt rest hnt
    obtain ⟨p2, hok, _⟩ := meta_directives_ok outfile_type contents p
    simp only [process_token]
    rw [hok]
    cases nt with
    | SQL c => exact absurd rfl hnt
    | LINE_COMMENT c => rfl
    | BLOCK_COMMENT c => rfl
    | HEADER a b => rfl
    | GROUP_TAG g => rfl
    | META_COMMENT c => rfl
  · intro contents outfile_type q p rest
    obtain ⟨p2, hok, hmeta⟩ := meta_directives_ok outfile_type contents p
    refine ⟨p2, hok, hmeta, ?_⟩
    simp only [process_token]
    rw [hok]

theorem C6_meta_lookahead_witness :
    process_token ".txt" (.META_COMMENT "EXCLUDE") [.LINE_COMMENT "note"]
      ⟨"/b", [], true, none⟩ =
    .error (.ValueError
      "Meta comment not preceeding sql token. meta token followed by LINE_COMMENT token.") :=
  C6_meta_lookahead.1 "EXCLUDE" ".txt" ⟨"/b", [], true, none⟩ (.LINE_COMMENT "note") []
    (by decide)

/-! ## C8: the header parser -/

/-- is this token the ENDHEAD terminator? -/
def isEndheadTok : Token → Bool
  | .HEADER tag _ => pyLower tag == "endhead"
  | _ => false

/-- does this token set the given header field? -/
def setsFieldTok (k : String) : Token → Bool
  | .HEADER tag _ => pyLower tag == k
  | _ => false

/-- does the stream reach an ENDHEAD terminator? -/
def hasEndhead (ts : List Token) : Bool := ts.any isEndheadTok

/-- is the given field set by some header token before the first terminator? -/
def setsBeforeEndhead (k : String) (ts : List Token) : Bool :=
  (ts.takeWhile (fun t => ¬ isEndheadTok t)).any (setsFieldTok k)

/-- C8: a header segment that reaches its terminator without setting
`dialect` (neither in the stream prefix nor already in the config) fails
with the missing-required-field LookupError; one that does set `dialect`
succeeds, and when no `output` field was given the resulting config maps
`output` to the current working directory. -/
theorem C8_header (ts : List Token) (config : List (String × String)) (cwd : String)
    (hend : hasEndhead ts = true) :
    ((setsBeforeEndhead "dialect" ts = false ∧ dict_contains config "dialect" = false) →
      process_header cwd ts config =
        .error (.LookupError "Missing a required field: \x27dialect\x27"))
    ∧ ((setsBeforeEndhead "dialect" ts = true ∨ dict_contains config "dialect" = true) →
      ∃ config2 rest, process_header cwd ts config = .ok (config2, rest) ∧
        ((setsBeforeEndhead "output" ts = false ∧ dict_contains config "output" = false) →
          dict_get config2 "output" = some cwd)) := by
  induction ts generalizing config with
  | nil => simp [hasEndhead] at hend
  | cons t ts ih =>
    cases t with
    | HEADER tag value =>
      by_cases he : pyLower tag = "endhead"
      · -- the terminator: process_header finalises the config
        have het : isEndheadTok (.HEADER tag value) = true := by
          simp [isEndheadTok, he]
        have hsd : setsBeforeEndhead "dialect" (.HEADER tag value :: ts) = false := by
          simp [setsBeforeEndhead, List.takeWhile_cons, het]
        have hso : setsBeforeEndhead "output" (.HEADER tag value :: ts) = false := by
          simp [setsBeforeEndhead, List.takeWhile_cons, het]
        have hstep : process_header cwd (.HEADER tag value :: ts) config =
            (if dict_contains
                (if dict_contains config "output" = true then
                  dict_set config "output" (osp_normcase ((dict_get config "output").getD ""))
                else dict_set config "output" cwd) "dialect" = true then
              .ok ((if dict_contains config "output" = true then
                  dict_set config "output" (osp_normcase ((dict_get config "output").getD ""))
                else dict_set config "output" cwd), ts)
            else .error (.LookupError "Missing a required field: \x27dialect\x27")) := by
          simp only [process_header]
          rw [if_neg (by simp [he])]
        set config2 := (if dict_contains config "output" = true then
            dict_set config "output" (osp_normcase ((dict_get config "output").getD ""))
          else dict_set config "output" cwd) with hc2
        have hcd : dict_contains config2 "dialect" = dict_contains config "dialect" := by
          rw [hc2]
          by_cases ho : dict_contains config "output" = true
          · rw [if_pos ho, dict_contains_set]; simp
          · rw [if_neg ho, dict_contains_set]; simp
        constructor
        · intro ⟨_, hcdf⟩
          rw [hstep, if_neg (by simp [hcd, hcdf])]
        · intro hd
          have hdt : dict_contains config "dialect" = true := by
            rcases hd with hd | hd
            · rw [hsd] at hd; exact absurd hd (by simp)
            · exact hd
          refine ⟨config2, ts, by rw [hstep, if_pos (by rw [hcd, hdt])], ?_⟩
          intro ⟨_, hco⟩
          rw [hc2, if_neg (by simp [hco])]
          exact dict_get_set_self config "output" cwd
      · -- an ordinary header line: set the field and continue
        have het : isEndheadTok (.HEADER tag value) = false := by
          simp [isEndheadTok, he]
        have hstep : process_header cwd (.HEADER tag value :: ts) config =
            process_header cwd ts (dict_set config (pyLower tag) value) := by
          simp only [process_header]
          rw [if_pos (by simp [he])]
        have hend2 : hasEndhead ts = true := by
          simpa [hasEndhead, het] using hend
        have hsd : setsBeforeEndhead "dialect" (.HEADER tag value :: ts) =
            ((pyLower tag == "dialect") || setsBeforeEndhead "dialect" ts) := by
          simp [setsBeforeEndhead, List.takeWhile_cons, het, setsFieldTok]
        have hso : setsBeforeEndhead "output" (.HEADER tag value :: ts) =
            ((pyLower tag == "output") || setsBeforeEndhead "output" ts) := by
          simp [setsBeforeEndhead, List.takeWhile_cons, het, setsFieldTok]
        have ihs := ih (dict_set config (pyLower tag) value) hend2
        constructor
        · intro ⟨hs1, hs2⟩
          rw [hsd] at hs1
          simp only [Bool.or_eq_false_iff] at hs1
          rw [hstep]
          exact ihs.1 ⟨hs1.2, by rw [dict_contains_set]; simp [hs1.1, hs2]⟩
        · intro hd
          rw [hstep]
          have hd2 : setsBeforeEndhead "dialect" ts = true ∨
              dict_contains (dict_set config (pyLower tag) value) "dialect" = true := by
            rcases hd with hd | hd
            · rw [hsd] at hd
              rcases (Bool.or_eq_true _ _).mp hd with hd | hd
              · right; rw [dict_contains_set, hd]; simp
              · left; exact hd
            · right; rw [dict_contains_set, hd]; simp
          obtain ⟨config2, rest, hok, hout⟩ := ihs.2 hd2
          refine ⟨config2, rest, hok, ?_⟩
          intro ⟨ho1, ho2⟩
          rw [hso] at ho1
          simp only [Bool.or_eq_false_iff] at ho1
          exact hout ⟨ho1.2, by rw [dict_contains_set]; simp [ho1.1, ho2]⟩
    | SQL c =>
      have hstep : process_header cwd (.SQL c :: ts) config = process_header cwd ts config := by
        simp [process_header]
      have hend2 : hasEndhead ts = true := by simpa [hasEndhead, isEndheadTok] using hend
      have ihs := ih config hend2
      rw [hstep]
      simpa [setsBeforeEndhead, List.takeWhile_cons, isEndheadTok, setsFieldTok] using ihs
    | LINE_COMMENT c =>
      have hstep : process_header cwd (.LINE_COMMENT c :: ts) config =
          process_header cwd ts config := by
        simp [process_header]
      have hend2 : hasEndhead ts = true := by simpa [hasEndhead, isEndheadTok] using hend
      have ihs := ih config hend2
      rw [hstep]
      simpa [setsBeforeEndhead, List.takeWhile_cons, isEndheadTok, setsFieldTok] using ihs
    | BLOCK_COMMENT c =>
      have hstep : process_header cwd (.BLOCK_COMMENT c :: ts) config =
          process_header cwd ts config := by
        simp [process_header]
      have hend2 : hasEndhead ts = true := by simpa [hasEndhead, isEndheadTok] using hend
      have ihs := ih config hend2
      rw [hstep]
      simpa [setsBeforeEndhead, List.takeWhile_cons, isEndheadTok, setsFieldTok] using ihs
    | GROUP_TAG g =>
      have hstep : process_header cwd (.GROUP_TAG g :: ts) config =
          process_header cwd ts config := by
        simp [process_header]
      have hend2 : hasEndhead ts = true := by simpa [hasEndhead, isEndheadTok] using hend
      have ihs := ih config hend2
      rw [hstep]
      simpa [setsBeforeEndhead, List.takeWhile_cons, isEndheadTok, setsFieldTok] using ihs
    | META_COMMENT c =>
      have hstep : process_header cwd (.META_COMMENT c :: ts) config =
          process_header cwd ts config := by
        simp [process_header]
      have hend2 : hasEndhead ts = true := by simpa [hasEndhead, isEndheadTok] using hend
      have ihs := ih config hend2
      rw [hstep]
      simpa [setsBeforeEndhead, List.takeWhile_cons, isEndheadTok, setsFieldTok] using ihs

theorem C8_header_witness :
    (process_header "/cwd" [Token.HEADER "ENDHEAD" "::"] [] =
      .error (.LookupError "Missing a required field: \x27dialect\x27"))
    ∧ ∃ config2 rest,
      process_header "/cwd" [Token.HEADER "DIALECT" "postgres", Token.HEADER "ENDHEAD" "::"] [] =
        .ok (config2, rest) ∧
      ((setsBeforeEndhead "output"
          [Token.HEADER "DIALECT" "postgres", Token.HEADER "ENDHEAD" "::"] = false ∧
        dict_contains [] "output" = false) →
        dict_get config2 "output" = some "/cwd") :=
  ⟨(C8_header [Token.HEADER "ENDHEAD" "::"] [] "/cwd" (by decide)).1 ⟨by decide, by decide⟩,
   (C8_header [Token.HEADER "DIALECT" "postgres", Token.HEADER "ENDHEAD" "::"] [] "/cwd"
      (by decide)).2 (Or.inl (by decide))⟩

/-! ## C9: case sensitivity of the SQL-starter match -/

theorem rstripL_cons_ne_nil {c : Char} (t : List Char) (h : isPyWs c = false) :
    rstripL (c :: t) ≠ [] := by
  unfold rstripL
  intro hcon
  have h1 := List.reverse_eq_nil_iff.mp hcon
  have h2 := List.dropWhile_eq_nil_iff.mp h1
  have h3 := h2 c (by simp)
  rw [h] at h3
  exact absurd h3 (by simp)

/-- C9: the lexer's SQL-starter membership test is exact and case-sensitive:
every line whose first space-delimited word is a proper lower- or mixed-case
variant of a recognised starter matches no branch of the dispatch and is
silently dropped (first conjunct), while the upper-case original is lexed as
SQL, and header, group-tag and meta-directive matching accept arbitrary case
(remaining conjuncts). -/
theorem C9_lowercase_sql_dropped :
    (∀ (line w : String),
      first_word line = w →
      (upperL w.toList).asString ∈ SQL_STARTERS →
      w ≠ (upperL w.toList).asString →
      classify_line line = .DROPPED)
    ∧ classify_line "SELECT * FROM t;" = .SQL_LINE "SELECT * FROM t;"
    ∧ header_match "-- DiAlEcT : postgres" = some ("DiAlEcT", "postgres")
    ∧ group_match "/* StartGroup : users */" = some ⟨"StartGroup", "users", none⟩
    ∧ group_match "/* startgroup : g : OUTPUT : admin */" = some ⟨"startgroup", "g", some "admin"⟩
    ∧ meta_comment_search "exclude me\nand more */" = true := by
  refine ⟨?_, by decide, by decide, by decide, by decide, by decide⟩
  intro line w hfw hmem hne
  have hwl : w.toList = (lstripL line.toList).takeWhile (fun c => c != ' ') := by
    rw [← hfw]; rfl
  cases hl : lstripL line.toList with
  | nil =>
    rw [hl] at hwl
    simp only [List.takeWhile_nil] at hwl
    rw [hwl] at hmem
    exact absurd hmem (by decide)
  | cons c t =>
    by_cases hsp : c = ' '
    · subst hsp
      rw [hl] at hwl
      have hwnil : w.toList = [] := by simpa using hwl
      rw [hwnil] at hmem
      exact absurd hmem (by decide)
    · have hwc : w.toList = c :: t.takeWhile (fun c => c != ' ') := by
        rw [hl] at hwl
        simpa [List.takeWhile_cons, hsp] using hwl
      have hhead : ∀ (s : String), (upperL w.toList).asString = s →
          s.data.head? = some (Char.toUpper c) := by
        intro s h
        have h2 := congrArg String.data h
        have h3 := congrArg List.head? h2
        rw [hwc] at h3
        simpa [upperL] using h3.symm
      have hupper : (Char.toUpper c).isUpper = true := by
        simp only [SQL_STARTERS, List.mem_cons, List.not_mem_nil, or_false] at hmem
        rcases hmem with h|h|h|h|h|h|h
        · have h5 : some 'S' = some (Char.toUpper c) := hhead _ h
          rw [← Option.some.inj h5]; decide
        · have h5 : some 'P' = some (Char.toUpper c) := hhead _ h
          rw [← Option.some.inj h5]; decide
        · have h5 : some 'C' = some (Char.toUpper c) := hhead _ h
          rw [← Option.some.inj h5]; decide
        · have h5 : some 'D' = some (Char.toUpper c) := hhead _ h
          rw [← Option.some.inj h5]; decide
        · have h5 : some 'W' = some (Char.toUpper c) := hhead _ h
          rw [← Option.some.inj h5]; decide
        · have h5 : some 'E' = some (Char.toUpper c) := hhead _ h
          rw [← Option.some.inj h5]; decide
        · have h5 : some 'R' = some (Char.toUpper c) := hhead _ h
          rw [← Option.some.inj h5]; decide
      obtain ⟨hnws, hdash, hslash⟩ := not_ws_of_toUpper_isUpper hupper
      have hne2 : stripL line.toList ≠ [] := by
        show rstripL (lstripL line.toList) ≠ []
        rw [hl]
        exact rstripL_cons_ne_nil t hnws
      have hdd : startsWithL (lstripL line.toList) ['-', '-'] = false := by
        rw [hl]
        simp [startsWithL, beq_eq_false_iff_ne.mpr hdash]
      have hss : startsWithL (lstripL line.toList) ['/', '*'] = false := by
        rw [hl]
        simp [startsWithL, beq_eq_false_iff_ne.mpr hslash]
      have hwne : ∀ (s : String), s ∈ SQL_STARTERS → (s == w) = false := by
        intro s hs
        rw [beq_eq_false_iff_ne]
        intro hsw
        subst hsw
        simp only [SQL_STARTERS, List.mem_cons, List.not_mem_nil, or_false] at hs
        rcases hs with h|h|h|h|h|h|h <;> (subst h; exact hne (by decide))
      have hmemf : elemStr SQL_STARTERS (first_word line) = false := by
        rw [hfw]
        simp only [SQL_STARTERS, elemStr, Bool.or_eq_false_iff]
        exact ⟨hwne "SELECT" (by decide), hwne "PREPARE" (by decide), hwne "CREATE" (by decide),
               hwne "DROP" (by decide), hwne "WITH" (by decide), hwne "EXECUTE" (by decide),
               hwne "RAISE" (by decide), trivial⟩
      simp only [classify_line]
      rw [if_neg (by simpa using hne2), if_neg (by simpa using hdd),
          if_neg (by simpa using hss), if_neg (by simpa using hmemf)]

theorem C9_lowercase_sql_dropped_witness :
    classify_line "select * from t;" = .DROPPED :=
  C9_lowercase_sql_dropped.1 "select * from t;" "select" rfl (by decide) (by decide)

/-! ## C10: the JSON preamble requires a version field -/

theorem process_header_no_new_field (k : String) (hk : k ≠ "output") :
    ∀ (ts : List Token) (config0 config2 : List (String × String)) (rest : List Token)
      (cwd : String),
      process_header cwd ts config0 = .ok (config2, rest) →
      (∀ t ∈ ts, setsFieldTok k t = false) →
      dict_contains config0 k = false →
      dict_contains config2 k = false := by
  intro ts
  induction ts with
  | nil =>
    intro c0 c2 rest cwd h
    simp [process_header] at h
  | cons t ts ih =>
    intro c0 c2 rest cwd h hset hc0
    cases t with
    | HEADER tag value =>
      by_cases he : pyLower tag = "endhead"
      · have hstep : process_header cwd (.HEADER tag value :: ts) c0 =
            (if dict_contains
                (if dict_contains c0 "output" = true then
                  dict_set c0 "output" (osp_normcase ((dict_get c0 "output").getD ""))
                else dict_set c0 "output" cwd) "dialect" = true then
              .ok ((if dict_contains c0 "output" = true then
                  dict_set c0 "output" (osp_normcase ((dict_get c0 "output").getD ""))
                else dict_set c0 "output" cwd), ts)
            else .error (.LookupError "Missing a required field: \x27dialect\x27")) := by
          simp only [process_header]
          rw [if_neg (by simp [he])]
        rw [hstep] at h
        have hcX : dict_contains
            (if dict_contains c0 "output" = true then
              dict_set c0 "output" (osp_normcase ((dict_get c0 "output").getD ""))
            else dict_set c0 "output" cwd) k = false := by
          by_cases ho : dict_contains c0 "output" = true
          · rw [if_pos ho, dict_contains_set]
            simp [hc0, beq_eq_false_iff_ne.mpr (Ne.symm hk)]
          · rw [if_neg ho, dict_contains_set]
            simp [hc0, beq_eq_false_iff_ne.mpr (Ne.symm hk)]
        by_cases hd : dict_contains
            (if dict_contains c0 "output" = true then
              dict_set c0 "output" (osp_normcase ((dict_get c0 "output").getD ""))
            else dict_set c0 "output" cwd) "dialect" = true
        · rw [if_pos hd] at h
          have h2 : (if dict_contains c0 "output" = true then
              dict_set c0 "output" (osp_normcase ((dict_get c0 "output").getD ""))
            else dict_set c0 "output" cwd) = c2 := congrArg Prod.fst (Except.ok.inj h)
          rw [← h2]
          exact hcX
        · rw [if_neg hd] at h
          exact absurd h (by simp)
      · have hstep : process_header cwd (.HEADER tag value :: ts) c0 =
            process_header cwd ts (dict_set c0 (pyLower tag) value) := by
          simp only [process_header]
          rw [if_pos (by simp [he])]
        rw [hstep] at h
        have hhead : setsFieldTok k (.HEADER tag value) = false := hset _ (by simp)
        have htag : (pyLower tag == k) = false := by simpa [setsFieldTok] using hhead
        refine ih _ _ _ _ h (fun t ht => hset t (by simp [ht])) ?_
        rw [dict_contains_set, htag, hc0]
        rfl
    | SQL c =>
      rw [show process_header cwd (.SQL c :: ts) c0 = process_header cwd ts c0 from by
        simp [process_header]] at h
      exact ih _ _ _ _ h (fun t ht => hset t (by simp [ht])) hc0
    | LINE_COMMENT c =>
      rw [show process_header cwd (.LINE_COMMENT c :: ts) c0 = process_header cwd ts c0 from by
        simp [process_header]] at h
      exact ih _ _ _ _ h (fun t ht => hset t (by simp [ht])) hc0
    | BLOCK_COMMENT c =>
      rw [show process_header cwd (.BLOCK_COMMENT c :: ts) c0 = process_header cwd ts c0 from by
        simp [process_header]] at h
      exact ih _ _ _ _ h (fun t ht => hset t (by simp [ht])) hc0
    | GROUP_TAG g =>
      rw [show process_header cwd (.GROUP_TAG g :: ts) c0 = process_header cwd ts c0 from by
        simp [process_header]] at h
      exact ih _ _ _ _ h (fun t ht => hset t (by simp [ht])) hc0
    | META_COMMENT c =>
      rw [show process_header cwd (.META_COMMENT c :: ts) c0 = process_header cwd ts c0 from by
        simp [process_header]] at h
      exact ih _ _ _ _ h (fun t ht => hset t (by simp [ht])) hc0

/-- C10: when the config has no `version` key (the key only a
`-- version : ...` header line creates, second conjunct), the JSON emitter
fails on the first token routed to an output file: the table is empty, so
the file is opened fresh at position 0 and the preamble's format call looks
up `config['version']`, raising the KeyError before any statement can be
written (first conjunct). -/
theorem C10_missing_version :
    (∀ (config : List (String × String)) (js : String) (t : ProcessedToken),
      dict_get config "version" = none →
      dict_get config "json_space" = some js →
      output_tokens_step config ⟨[], none, ""⟩ t = .error (.KeyError "version"))
    ∧ (∀ (ts : List Token) (config0 config2 : List (String × String)) (rest : List Token)
        (cwd : String),
      process_header cwd ts config0 = .ok (config2, rest) →
      (∀ t ∈ ts, setsFieldTok "version" t = false) →
      dict_contains config0 "version" = false →
      dict_contains config2 "version" = false) := by
  constructor
  · intro config js t h1 h2
    simp [output_tokens_step, get_outfile_json, lookupFile, ftell, osp_normcase, h1, h2]
  · exact process_header_no_new_field "version" (by decide)

theorem C10_missing_version_witness :
    output_tokens_step [("outfile_type", ".json"), ("json_space", "    ")] ⟨[], none, ""⟩
      ⟨.text "SELECT 1;", .SQL, ⟨"/out/default.json", [], false, none⟩⟩ =
      .error (.KeyError "version") :=
  C10_missing_version.1 [("outfile_type", ".json"), ("json_space", "    ")] "    "
    ⟨.text "SELECT 1;", .SQL, ⟨"/out/default.json", [], false, none⟩⟩ rfl rfl

end ConvertSql
